import Mathlib

/-!
Verification of the SSVEP stimulus-timing and experiment-protocol core.

Shallow embedding of the timing/state-machine core of the repository:
* `Stimulus` and its flicker/border-flash operations (`src/stimuli.py`,
  class `Stimulus`: `set_flicker`, `stop_flicker`, `trigger_border_flash`,
  `update_alpha`);
* `ExperimentManager` and its protocol state machine
  (`src/experiment_manager.py`).

Modelling conventions:
* Python floats (times, frequencies, phases, durations) are embedded as `ℚ`;
  the alpha value produced by `update_alpha` is a real number because it is
  defined through `Real.sin`.
* `time.time()` is modelled by threading an explicit `now : ℚ` argument into
  every operation that reads the wall clock; the host loop (`src/main.py`,
  line 335) passes `time.time()` as `current_time` to `update`, so within one
  call all wall-clock reads denote the same instant.
* Mutation of `self` is modelled by returning the updated structure; event
  emission (`trigger.write_event`) is modelled by returning the list of event
  ids written during the call.
* `random.choice(ids)` is modelled by an oracle `rng : ℕ → ℕ` giving, for each
  draw, the index chosen in `ids`; `random.choice` on an empty list raises
  `IndexError`, modelled by `Option`.
* GL/geometry fields (`x`, `y`, `size`, `color`, vao/vbo/shader) and the
  subclass vertex setup are rendering-only and carry no timing semantics;
  they are omitted from the embedding.
-/

/-- Python truthiness of an optional float (`if self.flicker_duration ...`):
`None` and `0.0` are falsy, any other float is truthy. -/
def pyTruthy : Option ℚ → Bool
  | none => false
  | some d => d != 0

/-- Timing-relevant state of `stimuli.Stimulus` (`__init__`, lines 62-72). -/
structure Stimulus where
  is_flickering : Bool
  flicker_freq : ℚ
  flicker_phase : ℚ
  flicker_start_frame : ℤ
  flicker_start_time : ℚ
  flicker_duration : Option ℚ
  is_flashing_border : Bool
  border_flash_start_time : ℚ
  border_flash_duration : ℚ
  border_color : ℚ × ℚ × ℚ
  deriving DecidableEq, Repr

/-- Field defaults set by `Stimulus.__init__`. -/
def Stimulus.init : Stimulus :=
  { is_flickering := false
    flicker_freq := 1
    flicker_phase := 0
    flicker_start_frame := 0
    flicker_start_time := 0
    flicker_duration := none
    is_flashing_border := false
    border_flash_start_time := 0
    border_flash_duration := 1/5
    border_color := (1, 0, 0) }

/-- Embeds `Stimulus.set_flicker(freq, phase=0.0, duration=None, current_frame=0)`
(lines 87-93); `now` stands for the `time.time()` read on line 93. -/
def Stimulus.set_flicker (s : Stimulus) (freq : ℚ) (phase : ℚ) (duration : Option ℚ)
    (current_frame : ℤ) (now : ℚ) : Stimulus :=
  { s with
    flicker_freq := freq
    flicker_phase := phase
    flicker_duration := duration
    is_flickering := true
    flicker_start_frame := current_frame
    flicker_start_time := now }

/-- Embeds `Stimulus.stop_flicker` (lines 95-96). -/
def Stimulus.stop_flicker (s : Stimulus) : Stimulus :=
  { s with is_flickering := false }

/-- Embeds `Stimulus.trigger_border_flash(color)` (lines 98-101). -/
def Stimulus.trigger_border_flash (s : Stimulus) (color : ℚ × ℚ × ℚ) (now : ℚ) : Stimulus :=
  { s with
    is_flashing_border := true
    border_flash_start_time := now
    border_color := color }

/-- The duration-expiry test on line 112:
`if self.flicker_duration and (current_time - self.flicker_start_time) > self.flicker_duration`. -/
def Stimulus.flickerExpired (s : Stimulus) (now : ℚ) : Bool :=
  pyTruthy s.flicker_duration &&
    decide (now - s.flicker_start_time > s.flicker_duration.getD 0)

/-- Embeds `Stimulus.update_alpha(current_frame, refresh_rate)` (lines 103-117).
Returns `(alpha, current_time, updated stimulus)`; the update clears
`is_flickering` when the duration check on line 112 fires. -/
noncomputable def Stimulus.update_alpha (s : Stimulus) (current_frame : ℤ)
    (refresh_rate : ℚ) (now : ℚ) : ℝ × ℚ × Stimulus :=
  if s.is_flickering then
    if s.flickerExpired now then
      (1, now, s.stop_flicker)
    else
      let time_elapsed_frames : ℚ := ((current_frame - s.flicker_start_frame : ℤ) : ℚ) / refresh_rate
      (0.5 * (1 + Real.sin (2 * Real.pi * (s.flicker_freq : ℝ) * (time_elapsed_frames : ℝ)
          + (s.flicker_phase : ℝ))), now, s)
  else
    (1, now, s)

/-- A concrete flickering stimulus used by the witnesses below:
`set_flicker(freq=8, current_frame=0)` applied to a fresh stimulus at time 0. -/
def sFlick : Stimulus := Stimulus.init.set_flicker 8 0 none 0 0

/-! ## ExperimentManager (`src/experiment_manager.py`) -/

/-- The six state constants `STATE_IDLE .. STATE_WAIT` (lines 18-23),
represented as a closed enumeration. -/
inductive EMState
  | IDLE | REST | CUE | FLICKER | FEEDBACK | WAIT
  deriving DecidableEq, Repr

/-- Replace the element at position `n` (no-op when out of range); helper for
Python item assignment on the stimulus list. -/
def modifyAt (g : Stimulus → Stimulus) : ℕ → List Stimulus → List Stimulus
  | _, [] => []
  | 0, s :: rest => g s :: rest
  | n + 1, s :: rest => s :: modifyAt g n rest

/-- Python list indexing semantics for `self.stimuli[i]`-then-mutate: a
negative index counts from the end. (CPython raises `IndexError` when the
index is out of range even after wrapping; every call site in the manager is
reached only with an in-range index, so the out-of-range case — modelled
here as a no-op — is unreachable.) -/
def pyModify (l : List Stimulus) (i : ℤ) (g : Stimulus → Stimulus) : List Stimulus :=
  let j : ℤ := if i < 0 then i + l.length else i
  if 0 ≤ j then modifyAt g j.toNat l else l

/-- State of `ExperimentManager` (`__init__`, lines 12-43). `hasTrigger`
models whether a trigger manager was supplied (`self.trigger`); timing
fields carry their `__init__` defaults and, like `TOTAL_OFFLINE_ROUNDS`
("Default, can be tailored"), may be overridden before `start`. -/
structure ExperimentManager where
  mode : String
  stimuli : List Stimulus
  hasTrigger : Bool
  state : EMState
  state_start_time : ℚ
  state_start_frame : ℤ
  target_idx : ℤ
  t_rest : ℚ
  t_cue : ℚ
  t_flicker : ℚ
  t_feedback : ℚ
  t_continuous_tag_interval : ℚ
  offline_sequence : List ℕ
  offline_round : ℕ
  total_offline_rounds : ℕ
  last_tag_time : ℚ
  deriving DecidableEq, Repr

/-- Embeds `ExperimentManager.__init__(mode, stimuli, trigger_manager)`: pure field
assignment, no validation of mode, stimulus count or frequencies. -/
def ExperimentManager.init (mode : String) (stimuli : List Stimulus)
    (hasTrigger : Bool) : ExperimentManager :=
  { mode := mode
    stimuli := stimuli
    hasTrigger := hasTrigger
    state := .IDLE
    state_start_time := 0
    state_start_frame := 0
    target_idx := -1
    t_rest := 1
    t_cue := 1
    t_flicker := 2
    t_feedback := 1/2
    t_continuous_tag_interval := 2
    offline_sequence := []
    offline_round := 0
    total_offline_rounds := 5
    last_tag_time := 0 }

/-- Embeds `_enter_state(new_state, frame_count=0)` (lines 76-117). Returns the
updated manager and the list of event ids written during the call. -/
def ExperimentManager.enter_state (m : ExperimentManager) (new_state : EMState)
    (now : ℚ) (frame_count : ℤ) : ExperimentManager × List ℤ :=
  let m1 := { m with
    state := new_state
    state_start_time := now
    state_start_frame := frame_count }
  match new_state with
  | .REST =>
      ({ m1 with stimuli := m1.stimuli.map Stimulus.stop_flicker }, [])
  | .CUE =>
      let upd : Stimulus → Stimulus := fun t =>
        let t2 := t.trigger_border_flash (1, 0, 0) now
        { t2 with border_flash_duration := m1.t_cue }
      ({ m1 with stimuli := pyModify m1.stimuli m1.target_idx upd }, [])
  | .FLICKER =>
      let startF : Stimulus → Stimulus := fun s =>
        s.set_flicker s.flicker_freq 0 none frame_count now
      let m2 := { m1 with stimuli := m1.stimuli.map startF }
      let evs : List ℤ :=
        if m2.hasTrigger then
          if m2.mode = "offline" then [m2.target_idx + 1]
          else if m2.mode = "online_discrete" then [100]
          else []
        else []
      (m2, evs)
  | .FEEDBACK =>
      let m2 := { m1 with stimuli := m1.stimuli.map Stimulus.stop_flicker }
      let upd : Stimulus → Stimulus := fun t =>
        let t2 := t.trigger_border_flash (0, 1, 0) now
        { t2 with border_flash_duration := m2.t_feedback }
      ({ m2 with stimuli := pyModify m2.stimuli m2.target_idx upd }, [])
  | _ => (m1, [])

/-- Embeds `_generate_offline_sequence(count)` (lines 181-185): `count` independent
draws from `range(len(stimuli))`, the `rng` oracle supplying each draw;
`random.choice` on an empty list raises (`none`). -/
def ExperimentManager.generate_offline_sequence (m : ExperimentManager)
    (rng : ℕ → ℕ) (count : ℕ) : Option ExperimentManager :=
  if m.stimuli.length = 0 then none
  else some { m with
    offline_sequence := (List.range count).map (fun i => rng i % m.stimuli.length) }

/-- Embeds `start()` (lines 45-64); an unrecognized mode only records the start
time. -/
def ExperimentManager.start (m : ExperimentManager) (rng : ℕ → ℕ) (now : ℚ) :
    Option (ExperimentManager × List ℤ) :=
  let m0 := { m with state_start_time := now }
  if m0.mode = "offline" then
    match m0.generate_offline_sequence rng m0.total_offline_rounds with
    | none => none
    | some m1 => some (({ m1 with offline_round := 0 }).enter_state .REST now 0)
  else if m0.mode = "online_discrete" then
    some (m0.enter_state .REST now 0)
  else if m0.mode = "online_continuous" then
    let (m1, evs) := m0.enter_state .FLICKER now 0
    some ({ m1 with
      stimuli := m1.stimuli.map (fun s => s.set_flicker s.flicker_freq 0 none 0 now)
      last_tag_time := now }, evs)
  else
    some (m0, [])

/-- Embeds `_update_offline(elapsed, current_time, frame_count)` (lines 119-136). -/
def ExperimentManager.update_offline (m : ExperimentManager) (now : ℚ)
    (frame_count : ℤ) : ExperimentManager × List ℤ :=
  let elapsed := now - m.state_start_time
  match m.state with
  | .REST =>
      if elapsed > m.t_rest then
        if m.offline_round < m.offline_sequence.length then
          ({ m with target_idx := (m.offline_sequence.getD m.offline_round 0 : ℤ) }
            ).enter_state .CUE now frame_count
        else
          m.enter_state .IDLE now 0
      else (m, [])
  | .CUE =>
      if elapsed > m.t_cue then m.enter_state .FLICKER now frame_count else (m, [])
  | .FLICKER =>
      if elapsed > m.t_flicker then
        ({ m with offline_round := m.offline_round + 1 }).enter_state .REST now frame_count
      else (m, [])
  | _ => (m, [])

/-- Embeds `_update_online_discrete(elapsed, current_time, frame_count)`
(lines 138-157). -/
def ExperimentManager.update_online_discrete (m : ExperimentManager) (now : ℚ)
    (frame_count : ℤ) : ExperimentManager × List ℤ :=
  let elapsed := now - m.state_start_time
  match m.state with
  | .REST =>
      if elapsed > m.t_rest then m.enter_state .FLICKER now frame_count else (m, [])
  | .FLICKER =>
      if elapsed > m.t_flicker then
        ({ m with stimuli := m.stimuli.map Stimulus.stop_flicker }
          ).enter_state .WAIT now frame_count
      else (m, [])
  | .FEEDBACK =>
      if elapsed > m.t_feedback then m.enter_state .REST now frame_count else (m, [])
  | _ => (m, [])

/-- Embeds `_update_online_continuous(elapsed, current_time, frame_count)`
(lines 159-166): periodic tag emission, timestamp reset on each firing. -/
def ExperimentManager.update_online_continuous (m : ExperimentManager) (now : ℚ) :
    ExperimentManager × List ℤ :=
  if now - m.last_tag_time > m.t_continuous_tag_interval then
    ({ m with last_tag_time := now }, if m.hasTrigger then [100] else [])
  else (m, [])

/-- Embeds `update(current_time, frame_count)` (lines 66-74). -/
def ExperimentManager.update (m : ExperimentManager) (now : ℚ) (frame_count : ℤ) :
    ExperimentManager × List ℤ :=
  if m.mode = "offline" then m.update_offline now frame_count
  else if m.mode = "online_discrete" then m.update_online_discrete now frame_count
  else if m.mode = "online_continuous" then m.update_online_continuous now
  else (m, [])

/-- Embeds `trigger_feedback(result_idx)` (lines 168-175). -/
def ExperimentManager.trigger_feedback (m : ExperimentManager) (result_idx : ℤ)
    (now : ℚ) : ExperimentManager × List ℤ :=
  if m.mode = "online_discrete" ∧ m.state = .WAIT then
    if 0 ≤ result_idx ∧ result_idx < m.stimuli.length then
      ({ m with target_idx := result_idx }).enter_state .FEEDBACK now 0
    else (m, [])
  else (m, [])

/-- A concrete `online_discrete` manager sitting in `WAIT`, used by
witnesses. -/
def mWait : ExperimentManager :=
  { ExperimentManager.init "online_discrete" [sFlick, Stimulus.init] true with
      state := .WAIT }

/-- A concrete offline manager in `CUE` with `target_idx = 1`, cue entered at
time 0, used by the C5 witness. -/
def mCue : ExperimentManager :=
  { ExperimentManager.init "offline" [sFlick, Stimulus.init] true with
      state := .CUE
      target_idx := 1
      offline_sequence := [1, 0]
      offline_round := 0 }

/-- A concrete `online_continuous` manager whose last tag was written at time
0, interval 2. -/
def mCont : ExperimentManager :=
  { ExperimentManager.init "online_continuous" [sFlick] true with state := .FLICKER }

/-! ### Offline session run (C3)

The session is driven by `update` calls whose times strictly increase by 10
seconds — far beyond every phase duration — so each call crosses the pending
threshold. `stepBig` performs one such call (frame argument 0; the offline
transition logic never reads it). -/

/-- The offline timing configuration produced by `__init__`:
mode `offline` with `t_rest = 1.0`, `t_cue = 1.0`, `t_flicker = 2.0`. -/
def OfflineReady (m : ExperimentManager) : Prop :=
  m.mode = "offline" ∧ m.t_rest = 1 ∧ m.t_cue = 1 ∧ m.t_flicker = 2

/-- One `update` call, 10 seconds after the current state was entered. -/
def stepBig (m : ExperimentManager) : ExperimentManager :=
  (m.update (m.state_start_time + 10) 0).1

/-- States observed after each successive `stepBig` call. -/
def traceBig (m : ExperimentManager) : ℕ → List EMState
  | 0 => []
  | k + 1 => (stepBig m).state :: traceBig (stepBig m) k

/-- Manager reached after `k` successive `stepBig` calls. -/
def driveBig (m : ExperimentManager) : ℕ → ExperimentManager
  | 0 => m
  | k + 1 => driveBig (stepBig m) k

/-- The manager state just before entering `REST` inside an offline
`start()`: start time recorded, random sequence generated, round reset. -/
def mStart (stims : List Stimulus) (ht : Bool) (rng : ℕ → ℕ) (now : ℚ) (N : ℕ) :
    ExperimentManager :=
  { ExperimentManager.init "offline" stims ht with
      total_offline_rounds := N
      state_start_time := now
      offline_sequence := (List.range N).map (fun i => rng i % stims.length)
      offline_round := 0 }

/-- In the flickering, non-expired branch, `update_alpha` yields the
sinusoidal intensity. -/
theorem update_alpha_sine_value (s : Stimulus) (f : ℤ) (r now : ℚ)
    (hf : s.is_flickering = true) (hexp : s.flickerExpired now = false) :
    (s.update_alpha f r now).1 =
      0.5 * (1 + Real.sin (2 * Real.pi * (s.flicker_freq : ℝ) *
        (((f : ℝ) - (s.flicker_start_frame : ℝ)) / (r : ℝ)) + (s.flicker_phase : ℝ))) := by
  simp only [Stimulus.update_alpha, hf, hexp, if_true, Bool.false_eq_true, if_false]
  push_cast
  ring_nf

/-- C1. `update_alpha` returns 1.0 when not flickering; when flickering with
the duration check not firing it returns
`0.5 * (1 + sin(2π·freq·((frame - startFrame)/refreshRate) + phase))`;
and for positive frequency and refresh rate the returned alpha lies in
`[0, 1]` (in fact in every branch). -/
theorem update_alpha_sine_law_and_range (s : Stimulus) (f : ℤ) (r now : ℚ) :
    (s.is_flickering = false → (s.update_alpha f r now).1 = 1) ∧
    (s.is_flickering = true → s.flickerExpired now = false →
      (s.update_alpha f r now).1 =
        0.5 * (1 + Real.sin (2 * Real.pi * (s.flicker_freq : ℝ) *
          (((f : ℝ) - (s.flicker_start_frame : ℝ)) / (r : ℝ)) + (s.flicker_phase : ℝ)))) ∧
    (0 < s.flicker_freq → 0 < r →
      0 ≤ (s.update_alpha f r now).1 ∧ (s.update_alpha f r now).1 ≤ 1) := by
  refine ⟨fun hnf => ?_, fun hf hexp => ?_, fun _ _ => ?_⟩
  · simp [Stimulus.update_alpha, hnf]
  · exact update_alpha_sine_value s f r now hf hexp
  · have hs := Real.sin_le_one (2 * Real.pi * (s.flicker_freq : ℝ) *
      ((((f - s.flicker_start_frame : ℤ) : ℚ) / r : ℚ) : ℝ) + (s.flicker_phase : ℝ))
    have hs' := Real.neg_one_le_sin (2 * Real.pi * (s.flicker_freq : ℝ) *
      ((((f - s.flicker_start_frame : ℤ) : ℚ) / r : ℚ) : ℝ) + (s.flicker_phase : ℝ))
    unfold Stimulus.update_alpha
    split
    · split
      · norm_num
      · constructor <;> [nlinarith; nlinarith]
    · norm_num

/-- Witness for C1 at the concrete stimulus `sFlick`, frame 3, rate 60. -/
theorem update_alpha_sine_law_and_range_witness :
    (0 : ℚ) < sFlick.flicker_freq ∧ (0 : ℚ) < 60 ∧
      0 ≤ (sFlick.update_alpha 3 60 0).1 ∧ (sFlick.update_alpha 3 60 0).1 ≤ 1 :=
  ⟨by decide, by decide,
    (update_alpha_sine_law_and_range sFlick 3 60 0).2.2 (by decide) (by decide)⟩

/-- C2. Frame-determinism of the flicker phase: with no duration set, the
alpha sampled at frame `flickerStartFrame + n` equals
`0.5*(1+sin(2π·f·n/refreshRate + phase))` and is the same at any two
wall-clock instants, so two runs presenting the same frame sequence at
different real-world speeds produce identical alpha sequences. -/
theorem update_alpha_frame_deterministic (s : Stimulus) (n : ℕ) (r now now' : ℚ)
    (hf : s.is_flickering = true) (hd : s.flicker_duration = none)
    (_hfreq : 0 < s.flicker_freq) :
    (s.update_alpha (s.flicker_start_frame + n) r now).1 =
      0.5 * (1 + Real.sin (2 * Real.pi * (s.flicker_freq : ℝ) * ((n : ℝ) / (r : ℝ))
        + (s.flicker_phase : ℝ))) ∧
    (s.update_alpha (s.flicker_start_frame + n) r now).1 =
      (s.update_alpha (s.flicker_start_frame + n) r now').1 := by
  have hexp : ∀ t : ℚ, s.flickerExpired t = false := by
    intro t
    simp [Stimulus.flickerExpired, hd, pyTruthy]
  have key : ∀ t : ℚ, (s.update_alpha (s.flicker_start_frame + n) r t).1 =
      0.5 * (1 + Real.sin (2 * Real.pi * (s.flicker_freq : ℝ) * ((n : ℝ) / (r : ℝ))
        + (s.flicker_phase : ℝ))) := by
    intro t
    have h := update_alpha_sine_value s (s.flicker_start_frame + n) r t hf (hexp t)
    rw [h]
    push_cast
    ring_nf
  exact ⟨key now, (key now).trans (key now').symm⟩

/-- Witness for C2: `sFlick` sampled at frame offset 2 under rate 60, at
wall-clock times 0 and 1000. -/
theorem update_alpha_frame_deterministic_witness :
    sFlick.is_flickering = true ∧ sFlick.flicker_duration = none ∧
      (sFlick.update_alpha (sFlick.flicker_start_frame + (2 : ℕ)) 60 0).1 =
        (sFlick.update_alpha (sFlick.flicker_start_frame + (2 : ℕ)) 60 1000).1 :=
  ⟨by decide, by decide,
    (update_alpha_frame_deterministic sFlick 2 60 0 1000 (by decide) (by decide)
      (by decide)).2⟩

/-- C9. `stop_flicker` is idempotent (a second call changes nothing and the
flag stays `false`), and `set_flicker` resets the phase reference:
`flicker_start_frame` becomes exactly the `current_frame` argument. -/
theorem stop_flicker_idempotent_set_flicker_resets (s : Stimulus) (freq phase : ℚ)
    (dur : Option ℚ) (cf : ℤ) (now : ℚ) :
    s.stop_flicker.stop_flicker = s.stop_flicker ∧
    s.stop_flicker.is_flickering = false ∧
    (s.set_flicker freq phase dur cf now).flicker_start_frame = cf ∧
    (s.set_flicker freq phase dur cf now).is_flickering = true := by
  refine ⟨rfl, rfl, rfl, rfl⟩

/-- C10. `set_flicker` with `duration = 0.0`: since `0.0` is falsy, the
duration check in `update_alpha` never fires, so for every wall-clock time
the stimulus stays flickering and the sinusoidal alpha is produced — it
never auto-expires. -/
theorem zero_duration_never_expires (s : Stimulus) (freq phase : ℚ) (cf : ℤ)
    (t0 : ℚ) (f : ℤ) (r now : ℚ) :
    ((s.set_flicker freq phase (some 0) cf t0).update_alpha f r now).2.2.is_flickering = true ∧
    (s.set_flicker freq phase (some 0) cf t0).flickerExpired now = false ∧
    ((s.set_flicker freq phase (some 0) cf t0).update_alpha f r now).1 =
      0.5 * (1 + Real.sin (2 * Real.pi * (freq : ℝ) * (((f : ℝ) - (cf : ℝ)) / (r : ℝ))
        + (phase : ℝ))) := by
  have hexp : (s.set_flicker freq phase (some 0) cf t0).flickerExpired now = false := by
    simp [Stimulus.flickerExpired, Stimulus.set_flicker, pyTruthy]
  refine ⟨?_, hexp, ?_⟩
  · simp [Stimulus.update_alpha, Stimulus.set_flicker, Stimulus.flickerExpired, pyTruthy]
  · have h := update_alpha_sine_value (s.set_flicker freq phase (some 0) cf t0)
      f r now rfl hexp
    simpa [Stimulus.set_flicker] using h

/-! ### List helpers for the stimulus list -/

theorem modifyAt_getD (g : Stimulus → Stimulus) (l : List Stimulus) (j : ℕ) (d : Stimulus)
    (h : j < l.length) : (modifyAt g j l).getD j d = g (l.getD j d) := by
  induction l generalizing j with
  | nil => simp at h
  | cons s rest ih =>
      cases j with
      | zero => simp [modifyAt]
      | succ n => simpa [modifyAt] using ih n (by simpa using h)

theorem mem_modifyAt_prop {P : Stimulus → Prop} (g : Stimulus → Stimulus) (j : ℕ)
    (l : List Stimulus) (hl : ∀ s ∈ l, P s) (hg : ∀ s, P s → P (g s)) :
    ∀ s ∈ modifyAt g j l, P s := by
  induction l generalizing j with
  | nil => simp [modifyAt]
  | cons a rest ih =>
      cases j with
      | zero =>
          intro s hs
          simp only [modifyAt, List.mem_cons] at hs
          rcases hs with rfl | hs
          · exact hg a (hl a (by simp))
          · exact hl s (by simp [hs])
      | succ n =>
          intro s hs
          simp only [modifyAt, List.mem_cons] at hs
          rcases hs with rfl | hs
          · exact hl s (by simp)
          · exact ih n (fun x hx => hl x (by simp [hx])) s hs

theorem mem_pyModify_prop {P : Stimulus → Prop} (l : List Stimulus) (i : ℤ)
    (g : Stimulus → Stimulus) (hl : ∀ s ∈ l, P s) (hg : ∀ s, P s → P (g s)) :
    ∀ s ∈ pyModify l i g, P s := by
  simp only [pyModify]
  split
  · split
    · exact mem_modifyAt_prop g _ l hl hg
    · exact hl
  · split
    · exact mem_modifyAt_prop g _ l hl hg
    · exact hl

theorem pyModify_getD (l : List Stimulus) (i : ℤ) (g : Stimulus → Stimulus) (d : Stimulus)
    (h0 : 0 ≤ i) (hlt : i < l.length) :
    (pyModify l i g).getD i.toNat d = g (l.getD i.toNat d) := by
  have hj : ¬ i < 0 := not_lt.2 h0
  have hn : i.toNat < l.length := by omega
  simp only [pyModify, hj, if_false, h0, if_true]
  exact modifyAt_getD g l i.toNat d hn

theorem getD_mem_or_default (l : List Stimulus) (n : ℕ) (d : Stimulus) :
    l.getD n d ∈ l ∨ l.getD n d = d := by
  induction l generalizing n with
  | nil => simp
  | cons a rest ih =>
      cases n with
      | zero => simp
      | succ k =>
          rcases ih k with h | h
          · refine Or.inl (List.mem_cons_of_mem a ?_)
            simpa using h
          · exact Or.inr (by simpa using h)

/-! ### `enter_state` projection lemmas (all definitional) -/

theorem enter_state_state (m : ExperimentManager) (st : EMState) (now : ℚ) (fc : ℤ) :
    (m.enter_state st now fc).1.state = st := by cases st <;> rfl

theorem enter_state_start_time (m : ExperimentManager) (st : EMState) (now : ℚ) (fc : ℤ) :
    (m.enter_state st now fc).1.state_start_time = now := by cases st <;> rfl

theorem enter_state_mode (m : ExperimentManager) (st : EMState) (now : ℚ) (fc : ℤ) :
    (m.enter_state st now fc).1.mode = m.mode := by cases st <;> rfl

theorem enter_state_target_idx (m : ExperimentManager) (st : EMState) (now : ℚ) (fc : ℤ) :
    (m.enter_state st now fc).1.target_idx = m.target_idx := by cases st <;> rfl

theorem enter_state_hasTrigger (m : ExperimentManager) (st : EMState) (now : ℚ) (fc : ℤ) :
    (m.enter_state st now fc).1.hasTrigger = m.hasTrigger := by cases st <;> rfl

theorem enter_state_t_rest (m : ExperimentManager) (st : EMState) (now : ℚ) (fc : ℤ) :
    (m.enter_state st now fc).1.t_rest = m.t_rest := by cases st <;> rfl

theorem enter_state_t_cue (m : ExperimentManager) (st : EMState) (now : ℚ) (fc : ℤ) :
    (m.enter_state st now fc).1.t_cue = m.t_cue := by cases st <;> rfl

theorem enter_state_t_flicker (m : ExperimentManager) (st : EMState) (now : ℚ) (fc : ℤ) :
    (m.enter_state st now fc).1.t_flicker = m.t_flicker := by cases st <;> rfl

theorem enter_state_t_feedback (m : ExperimentManager) (st : EMState) (now : ℚ) (fc : ℤ) :
    (m.enter_state st now fc).1.t_feedback = m.t_feedback := by cases st <;> rfl

theorem enter_state_offline_sequence (m : ExperimentManager) (st : EMState) (now : ℚ) (fc : ℤ) :
    (m.enter_state st now fc).1.offline_sequence = m.offline_sequence := by cases st <;> rfl

theorem enter_state_offline_round (m : ExperimentManager) (st : EMState) (now : ℚ) (fc : ℤ) :
    (m.enter_state st now fc).1.offline_round = m.offline_round := by cases st <;> rfl

theorem enter_rest_stimuli (m : ExperimentManager) (now : ℚ) (fc : ℤ) :
    (m.enter_state .REST now fc).1.stimuli = m.stimuli.map Stimulus.stop_flicker := rfl

theorem enter_flicker_stimuli (m : ExperimentManager) (now : ℚ) (fc : ℤ) :
    (m.enter_state .FLICKER now fc).1.stimuli =
      m.stimuli.map (fun s => s.set_flicker s.flicker_freq 0 none fc now) := rfl

theorem enter_feedback_stimuli (m : ExperimentManager) (now : ℚ) (fc : ℤ) :
    (m.enter_state .FEEDBACK now fc).1.stimuli =
      pyModify (m.stimuli.map Stimulus.stop_flicker) m.target_idx
        (fun t =>
          let t2 := t.trigger_border_flash (0, 1, 0) now
          { t2 with border_flash_duration := m.t_feedback }) := rfl

theorem enter_flicker_events (m : ExperimentManager) (now : ℚ) (fc : ℤ) :
    (m.enter_state .FLICKER now fc).2 =
      if m.hasTrigger then
        if m.mode = "offline" then [m.target_idx + 1]
        else if m.mode = "online_discrete" then [100]
        else []
      else [] := rfl

theorem enter_state_no_events (m : ExperimentManager) (st : EMState) (now : ℚ) (fc : ℤ)
    (h : st ≠ .FLICKER) : (m.enter_state st now fc).2 = [] := by
  cases st <;> first | rfl | exact absurd rfl h

/-! ### Protocol theorems -/

theorem stop_flicker_map_all_false (l : List Stimulus) :
    ∀ s ∈ l.map Stimulus.stop_flicker, s.is_flickering = false := by
  intro s hs
  obtain ⟨t, _, rfl⟩ := List.mem_map.1 hs
  rfl

theorem feedback_stimuli_all_not_flickering (m : ExperimentManager) (now : ℚ) (fc : ℤ) :
    ∀ s ∈ (m.enter_state .FEEDBACK now fc).1.stimuli, s.is_flickering = false := by
  rw [enter_feedback_stimuli]
  exact mem_pyModify_prop _ _ _ (stop_flicker_map_all_false m.stimuli) (fun x hx => hx)

/-- C7. Entering `REST` stops flicker on every stimulus; entering `FEEDBACK`
stops flicker on every stimulus and then starts the border flash on the
result stimulus (index `target_idx`): immediately after either entry no
stimulus is flickering. -/
theorem rest_feedback_entries_stop_flicker (m : ExperimentManager) (now : ℚ) (fc : ℤ) :
    (∀ s ∈ (m.enter_state .REST now fc).1.stimuli, s.is_flickering = false) ∧
    (∀ s ∈ (m.enter_state .FEEDBACK now fc).1.stimuli, s.is_flickering = false) ∧
    (0 ≤ m.target_idx → m.target_idx < m.stimuli.length →
      ((m.enter_state .FEEDBACK now fc).1.stimuli.getD m.target_idx.toNat
          Stimulus.init).is_flashing_border = true ∧
      ((m.enter_state .FEEDBACK now fc).1.stimuli.getD m.target_idx.toNat
          Stimulus.init).is_flickering = false) := by
  refine ⟨?_, feedback_stimuli_all_not_flickering m now fc, fun h0 hlt => ?_⟩
  · rw [enter_rest_stimuli]
    exact stop_flicker_map_all_false m.stimuli
  · have hlen : m.target_idx < ((m.stimuli.map Stimulus.stop_flicker).length : ℤ) := by
      simpa using hlt
    rw [enter_feedback_stimuli, pyModify_getD _ _ _ _ h0 hlen]
    refine ⟨rfl, ?_⟩
    show ((m.stimuli.map Stimulus.stop_flicker).getD m.target_idx.toNat
      Stimulus.init).is_flickering = false
    rcases getD_mem_or_default (m.stimuli.map Stimulus.stop_flicker) m.target_idx.toNat
        Stimulus.init with h | h
    · exact stop_flicker_map_all_false m.stimuli _ h
    · rw [h]
      rfl

/-- Witness for C7: a manager in mode `online_discrete` holding one
flickering stimulus, `target_idx = 0`. -/
theorem rest_feedback_entries_stop_flicker_witness :
    (∀ s ∈ (({ ExperimentManager.init "online_discrete" [sFlick] true with
        target_idx := 0 }).enter_state .REST 3 7).1.stimuli, s.is_flickering = false) ∧
    ((({ ExperimentManager.init "online_discrete" [sFlick] true with
        target_idx := 0 }).enter_state .FEEDBACK 3 7).1.stimuli.getD 0
          Stimulus.init).is_flashing_border = true := by
  refine ⟨(rest_feedback_entries_stop_flicker _ 3 7).1, ?_⟩
  have h := (rest_feedback_entries_stop_flicker
    ({ ExperimentManager.init "online_discrete" [sFlick] true with target_idx := 0 })
    3 7).2.2 (by decide) (by decide)
  exact h.1

/-- C4. `trigger_feedback(result_idx)` outside `online_discrete`/`WAIT` or
with an out-of-range index leaves the manager unchanged and emits nothing
(and, being total, raises no error); in `online_discrete`/`WAIT` with an
in-range index it sets `target_idx := result_idx`, enters `FEEDBACK`, stops
all flicker and starts the green border flash with duration `t_feedback` on
stimulus `result_idx`. -/
theorem trigger_feedback_guarded (m : ExperimentManager) (i : ℤ) (now : ℚ) :
    (¬(m.mode = "online_discrete" ∧ m.state = .WAIT ∧ 0 ≤ i ∧ i < m.stimuli.length) →
      (m.trigger_feedback i now).1 = m ∧ (m.trigger_feedback i now).2 = []) ∧
    (m.mode = "online_discrete" → m.state = .WAIT → 0 ≤ i → i < m.stimuli.length →
      (m.trigger_feedback i now).1.state = .FEEDBACK ∧
      (m.trigger_feedback i now).1.target_idx = i ∧
      (∀ s ∈ (m.trigger_feedback i now).1.stimuli, s.is_flickering = false) ∧
      ((m.trigger_feedback i now).1.stimuli.getD i.toNat Stimulus.init).is_flashing_border
          = true ∧
      ((m.trigger_feedback i now).1.stimuli.getD i.toNat Stimulus.init).border_color
          = (0, 1, 0) ∧
      ((m.trigger_feedback i now).1.stimuli.getD i.toNat Stimulus.init).border_flash_duration
          = m.t_feedback) := by
  constructor
  · intro hfail
    by_cases h1 : m.mode = "online_discrete" ∧ m.state = .WAIT
    · by_cases h2 : 0 ≤ i ∧ i < (m.stimuli.length : ℤ)
      · exact absurd ⟨h1.1, h1.2, h2.1, h2.2⟩ hfail
      · unfold ExperimentManager.trigger_feedback
        rw [if_pos h1, if_neg h2]
        exact ⟨rfl, rfl⟩
    · unfold ExperimentManager.trigger_feedback
      rw [if_neg h1]
      exact ⟨rfl, rfl⟩
  · intro hmode hstate h0 hlt
    have hcond : m.mode = "online_discrete" ∧ m.state = .WAIT := ⟨hmode, hstate⟩
    have hrange : 0 ≤ i ∧ i < (m.stimuli.length : ℤ) := ⟨h0, hlt⟩
    have hres : m.trigger_feedback i now =
        ({ m with target_idx := i }).enter_state .FEEDBACK now 0 := by
      unfold ExperimentManager.trigger_feedback
      rw [if_pos hcond, if_pos hrange]
    rw [hres]
    set m' : ExperimentManager := { m with target_idx := i } with hm'
    have hlen : m'.target_idx < ((m'.stimuli.map Stimulus.stop_flicker).length : ℤ) := by
      simp [hm']
      exact hlt
    refine ⟨enter_state_state m' .FEEDBACK now 0, by rw [enter_state_target_idx], ?_, ?_⟩
    · exact feedback_stimuli_all_not_flickering m' now 0
    · have hgd := pyModify_getD (m'.stimuli.map Stimulus.stop_flicker) m'.target_idx
        (fun t =>
          let t2 := t.trigger_border_flash (0, 1, 0) now
          { t2 with border_flash_duration := m'.t_feedback }) Stimulus.init h0 hlen
      rw [enter_feedback_stimuli]
      show (((pyModify (m'.stimuli.map Stimulus.stop_flicker) m'.target_idx _).getD i.toNat
          Stimulus.init).is_flashing_border = true) ∧ _
      have hti : m'.target_idx = i := rfl
      rw [hti] at hgd
      rw [hgd]
      exact ⟨rfl, rfl, rfl⟩

/-- Witness for C4: in `mWait`, an out-of-range call (index 5) is a no-op
and the in-range call (index 1) enters `FEEDBACK` targeting stimulus 1. -/
theorem trigger_feedback_guarded_witness :
    (mWait.trigger_feedback 5 9).1 = mWait ∧
    (mWait.trigger_feedback 1 9).1.state = .FEEDBACK ∧
    (mWait.trigger_feedback 1 9).1.target_idx = 1 ∧
    ((mWait.trigger_feedback 1 9).1.stimuli.getD 1 Stimulus.init).is_flashing_border = true :=
  ⟨((trigger_feedback_guarded mWait 5 9).1 (by decide)).1,
    ((trigger_feedback_guarded mWait 1 9).2 rfl rfl (by decide) (by decide)).1,
    ((trigger_feedback_guarded mWait 1 9).2 rfl rfl (by decide) (by decide)).2.1,
    ((trigger_feedback_guarded mWait 1 9).2 rfl rfl (by decide) (by decide)).2.2.2.1⟩

/-- C5. Event emission is aligned with `FLICKER` entry: in `offline` mode the
CUE→FLICKER transition emits exactly `[target_idx + 1]` (while the preceding
REST→CUE transition emits nothing), and in `online_discrete` mode the
REST→FLICKER transition emits exactly `[100]`; in both cases the same
`update` call that emits also starts flicker on all stimuli with phase
reference `frame_count`. -/
theorem flicker_entry_emissions (m : ExperimentManager) (now : ℚ) (fc : ℤ)
    (ht : m.hasTrigger = true) :
    (m.mode = "offline" → m.state = .CUE → now - m.state_start_time > m.t_cue →
      (m.update now fc).1.state = .FLICKER ∧
      (m.update now fc).2 = [m.target_idx + 1] ∧
      ∀ s ∈ (m.update now fc).1.stimuli,
        s.is_flickering = true ∧ s.flicker_start_frame = fc) ∧
    (m.mode = "offline" → m.state = .REST → now - m.state_start_time > m.t_rest →
      m.offline_round < m.offline_sequence.length →
      (m.update now fc).1.state = .CUE ∧ (m.update now fc).2 = []) ∧
    (m.mode = "online_discrete" → m.state = .REST → now - m.state_start_time > m.t_rest →
      (m.update now fc).1.state = .FLICKER ∧
      (m.update now fc).2 = [100] ∧
      ∀ s ∈ (m.update now fc).1.stimuli,
        s.is_flickering = true ∧ s.flicker_start_frame = fc) := by
  refine ⟨fun hm hs helap => ?_, fun hm hs helap hround => ?_, fun hm hs helap => ?_⟩
  · have hupd : m.update now fc = m.enter_state .FLICKER now fc := by
      unfold ExperimentManager.update ExperimentManager.update_offline
      rw [if_pos hm, hs]
      simp only [if_pos helap]
    rw [hupd]
    refine ⟨enter_state_state m .FLICKER now fc, ?_, ?_⟩
    · rw [enter_flicker_events, if_pos ht, if_pos hm]
    · rw [enter_flicker_stimuli]
      intro s hsm
      obtain ⟨t, _, rfl⟩ := List.mem_map.1 hsm
      exact ⟨rfl, rfl⟩
  · have hupd : m.update now fc =
        ({ m with target_idx := (m.offline_sequence.getD m.offline_round 0 : ℤ) }
          ).enter_state .CUE now fc := by
      unfold ExperimentManager.update ExperimentManager.update_offline
      rw [if_pos hm, hs]
      simp only [if_pos helap, if_pos hround]
    rw [hupd]
    exact ⟨enter_state_state _ .CUE now fc, enter_state_no_events _ .CUE now fc (by simp)⟩
  · have hm' : ¬ m.mode = "offline" := by rw [hm]; decide
    have hupd : m.update now fc = m.enter_state .FLICKER now fc := by
      unfold ExperimentManager.update ExperimentManager.update_online_discrete
      rw [if_neg hm', if_pos hm, hs]
      simp only [if_pos helap]
    rw [hupd]
    refine ⟨enter_state_state m .FLICKER now fc, ?_, ?_⟩
    · rw [enter_flicker_events, if_pos ht, if_neg (by rw [hm]; decide), if_pos hm]
    · rw [enter_flicker_stimuli]
      intro s hsm
      obtain ⟨t, _, rfl⟩ := List.mem_map.1 hsm
      exact ⟨rfl, rfl⟩

/-- Witness for C5: from `mCue` the update at time 5 (cue duration 1 expired)
enters `FLICKER` emitting exactly `[2]` = `target_idx + 1`. -/
theorem flicker_entry_emissions_witness :
    (mCue.update 5 11).1.state = .FLICKER ∧ (mCue.update 5 11).2 = [2] :=
  ⟨((flicker_entry_emissions mCue 5 11 rfl).1 rfl rfl
      (by norm_num [mCue, ExperimentManager.init])).1,
    ((flicker_entry_emissions mCue 5 11 rfl).1 rfl rfl
      (by norm_num [mCue, ExperimentManager.init])).2.1⟩

/-- C6. In `online_continuous` mode `update` never changes the protocol state
and never touches any stimulus (flicker is never stopped); it emits `[100]`
precisely when `now - last_tag_time > t_continuous_tag_interval` (so the
first emission is strictly later than one interval after `start`, which set
`last_tag_time` to the start time), resetting `last_tag_time` to `now` on
each emission and leaving the manager untouched otherwise. -/
theorem continuous_update_behaviour (m : ExperimentManager) (now : ℚ) (fc : ℤ)
    (hm : m.mode = "online_continuous") :
    (m.update now fc).1.state = m.state ∧
    (m.update now fc).1.stimuli = m.stimuli ∧
    (now - m.last_tag_time > m.t_continuous_tag_interval →
      (m.update now fc).1.last_tag_time = now ∧
      (m.hasTrigger = true → (m.update now fc).2 = [100])) ∧
    (¬ now - m.last_tag_time > m.t_continuous_tag_interval →
      (m.update now fc).1 = m ∧ (m.update now fc).2 = []) := by
  have hupd : m.update now fc = m.update_online_continuous now := by
    unfold ExperimentManager.update
    rw [if_neg (by rw [hm]; decide), if_neg (by rw [hm]; decide), if_pos hm]
  rw [hupd]
  unfold ExperimentManager.update_online_continuous
  by_cases h : now - m.last_tag_time > m.t_continuous_tag_interval
  · rw [if_pos h]
    exact ⟨rfl, rfl, fun _ => ⟨rfl, fun htr => by rw [if_pos htr]⟩, fun hc => absurd h hc⟩
  · rw [if_neg h]
    exact ⟨rfl, rfl, fun hc => absurd hc h, fun _ => ⟨rfl, rfl⟩⟩

/-- Witness for C6: at time 21/10 (elapsed 2.1 > 2.0) `mCont` emits `[100]`
and resets the timestamp; at time 2 (elapsed 2.0, not strictly greater) it
emits nothing and is unchanged. -/
theorem continuous_update_behaviour_witness :
    ((mCont.update (21/10) 126).1.last_tag_time = 21/10 ∧
      (mCont.update (21/10) 126).2 = [100]) ∧
    ((mCont.update 2 120).1 = mCont ∧ (mCont.update 2 120).2 = []) :=
  ⟨⟨((continuous_update_behaviour mCont (21/10) 126 rfl).2.2.1
        (by norm_num [mCont, ExperimentManager.init])).1,
      ((continuous_update_behaviour mCont (21/10) 126 rfl).2.2.1
        (by norm_num [mCont, ExperimentManager.init])).2 rfl⟩,
    (continuous_update_behaviour mCont 2 120 rfl).2.2.2
      (by norm_num [mCont, ExperimentManager.init])⟩

theorem traceBig_succ (m : ExperimentManager) (k : ℕ) :
    traceBig m (k + 1) = (stepBig m).state :: traceBig (stepBig m) k := rfl

theorem driveBig_succ (m : ExperimentManager) (k : ℕ) :
    driveBig m (k + 1) = driveBig (stepBig m) k := rfl

theorem stepBig_rest_cue (m : ExperimentManager) (h : OfflineReady m)
    (hs : m.state = .REST) (hr : m.offline_round < m.offline_sequence.length) :
    OfflineReady (stepBig m) ∧ (stepBig m).state = .CUE ∧
    (stepBig m).offline_round = m.offline_round ∧
    (stepBig m).offline_sequence = m.offline_sequence := by
  obtain ⟨hm, h1, h2, h3⟩ := h
  have helap : m.state_start_time + 10 - m.state_start_time > m.t_rest := by
    rw [h1]; linarith
  have hupd : stepBig m =
      (({ m with target_idx := (m.offline_sequence.getD m.offline_round 0 : ℤ) }
        ).enter_state .CUE (m.state_start_time + 10) 0).1 := by
    unfold stepBig ExperimentManager.update ExperimentManager.update_offline
    rw [if_pos hm, hs]
    simp only [if_pos helap, if_pos hr]
  rw [hupd]
  exact ⟨⟨by rw [enter_state_mode]; exact hm, by rw [enter_state_t_rest]; exact h1,
      by rw [enter_state_t_cue]; exact h2, by rw [enter_state_t_flicker]; exact h3⟩,
    enter_state_state _ _ _ _, by rw [enter_state_offline_round],
    by rw [enter_state_offline_sequence]⟩

theorem stepBig_cue_flicker (m : ExperimentManager) (h : OfflineReady m)
    (hs : m.state = .CUE) :
    OfflineReady (stepBig m) ∧ (stepBig m).state = .FLICKER ∧
    (stepBig m).offline_round = m.offline_round ∧
    (stepBig m).offline_sequence = m.offline_sequence := by
  obtain ⟨hm, h1, h2, h3⟩ := h
  have helap : m.state_start_time + 10 - m.state_start_time > m.t_cue := by
    rw [h2]; linarith
  have hupd : stepBig m = (m.enter_state .FLICKER (m.state_start_time + 10) 0).1 := by
    unfold stepBig ExperimentManager.update ExperimentManager.update_offline
    rw [if_pos hm, hs]
    simp only [if_pos helap]
  rw [hupd]
  exact ⟨⟨by rw [enter_state_mode]; exact hm, by rw [enter_state_t_rest]; exact h1,
      by rw [enter_state_t_cue]; exact h2, by rw [enter_state_t_flicker]; exact h3⟩,
    enter_state_state _ _ _ _, by rw [enter_state_offline_round],
    by rw [enter_state_offline_sequence]⟩

theorem stepBig_flicker_rest (m : ExperimentManager) (h : OfflineReady m)
    (hs : m.state = .FLICKER) :
    OfflineReady (stepBig m) ∧ (stepBig m).state = .REST ∧
    (stepBig m).offline_round = m.offline_round + 1 ∧
    (stepBig m).offline_sequence = m.offline_sequence := by
  obtain ⟨hm, h1, h2, h3⟩ := h
  have helap : m.state_start_time + 10 - m.state_start_time > m.t_flicker := by
    rw [h3]; linarith
  have hupd : stepBig m =
      (({ m with offline_round := m.offline_round + 1 }
        ).enter_state .REST (m.state_start_time + 10) 0).1 := by
    unfold stepBig ExperimentManager.update ExperimentManager.update_offline
    rw [if_pos hm, hs]
    simp only [if_pos helap]
  rw [hupd]
  exact ⟨⟨by rw [enter_state_mode]; exact hm, by rw [enter_state_t_rest]; exact h1,
      by rw [enter_state_t_cue]; exact h2, by rw [enter_state_t_flicker]; exact h3⟩,
    enter_state_state _ _ _ _, by rw [enter_state_offline_round],
    by rw [enter_state_offline_sequence]⟩

theorem stepBig_rest_idle (m : ExperimentManager) (h : OfflineReady m)
    (hs : m.state = .REST) (hnr : ¬ m.offline_round < m.offline_sequence.length) :
    (stepBig m).state = .IDLE ∧ (stepBig m).mode = "offline" := by
  obtain ⟨hm, h1, _, _⟩ := h
  have helap : m.state_start_time + 10 - m.state_start_time > m.t_rest := by
    rw [h1]; linarith
  have hupd : stepBig m = (m.enter_state .IDLE (m.state_start_time + 10) 0).1 := by
    unfold stepBig ExperimentManager.update ExperimentManager.update_offline
    rw [if_pos hm, hs]
    simp only [if_pos helap, if_neg hnr]
  rw [hupd]
  exact ⟨enter_state_state _ _ _ _, (enter_state_mode _ _ _ _).trans hm⟩

/-- In offline mode, once the state is `IDLE`, `update` performs no
transition at any time: `_update_offline` has no `IDLE` branch. -/
theorem update_idle_noop (m : ExperimentManager) (now : ℚ) (fc : ℤ)
    (hm : m.mode = "offline") (hs : m.state = .IDLE) :
    m.update now fc = (m, []) := by
  unfold ExperimentManager.update ExperimentManager.update_offline
  rw [if_pos hm, hs]

theorem offline_run (k : ℕ) : ∀ m : ExperimentManager, OfflineReady m → m.state = .REST →
    m.offline_sequence.length = m.offline_round + k →
    traceBig m (3 * k + 1) =
      (List.replicate k [EMState.CUE, EMState.FLICKER, EMState.REST]).flatten ++ [EMState.IDLE] ∧
    (driveBig m (3 * k + 1)).state = .IDLE ∧
    (driveBig m (3 * k + 1)).mode = "offline" := by
  induction k with
  | zero =>
      intro m h hs hlen
      have hnr : ¬ m.offline_round < m.offline_sequence.length := by omega
      have h1 := stepBig_rest_idle m h hs hnr
      refine ⟨?_, ?_, ?_⟩
      · show traceBig m (0 + 1) = [EMState.IDLE]
        rw [traceBig_succ, h1.1]
        rfl
      · show (driveBig m (0 + 1)).state = .IDLE
        rw [driveBig_succ]
        exact h1.1
      · show (driveBig m (0 + 1)).mode = "offline"
        rw [driveBig_succ]
        exact h1.2
  | succ k ih =>
      intro m h hs hlen
      have hr : m.offline_round < m.offline_sequence.length := by omega
      obtain ⟨hA, hAs, hAr, hAq⟩ := stepBig_rest_cue m h hs hr
      obtain ⟨hB, hBs, hBr, hBq⟩ := stepBig_cue_flicker (stepBig m) hA hAs
      obtain ⟨hC, hCs, hCr, hCq⟩ := stepBig_flicker_rest (stepBig (stepBig m)) hB hBs
      have hlen3 : (stepBig (stepBig (stepBig m))).offline_sequence.length =
          (stepBig (stepBig (stepBig m))).offline_round + k := by
        rw [hCq, hBq, hAq, hCr, hBr, hAr]
        omega
      have hrec := ih (stepBig (stepBig (stepBig m))) hC hCs hlen3
      have e3 : 3 * (k + 1) + 1 = 3 * k + 1 + 1 + 1 + 1 := by ring
      refine ⟨?_, ?_, ?_⟩
      · rw [e3, traceBig_succ, traceBig_succ, traceBig_succ, hAs, hBs, hCs, hrec.1]
        simp [List.replicate_succ]
      · rw [e3, driveBig_succ, driveBig_succ, driveBig_succ]
        exact hrec.2.1
      · rw [e3, driveBig_succ, driveBig_succ, driveBig_succ]
        exact hrec.2.2

theorem offline_start_eq (stims : List Stimulus) (ht : Bool) (rng : ℕ → ℕ) (now : ℚ)
    (N : ℕ) (hne : ¬ stims.length = 0) :
    ({ ExperimentManager.init "offline" stims ht with total_offline_rounds := N }).start rng now
      = some (((mStart stims ht rng now N).enter_state .REST now 0).1, []) := by
  simp only [ExperimentManager.start, ExperimentManager.generate_offline_sequence,
    ExperimentManager.init, hne, mStart]
  rfl

/-- C3. Offline session: `start()` succeeds, producing an offline sequence of
length exactly `total_offline_rounds` with every element in
`[0, stimulusCount)`; driving `update` with strictly increasing times
(each 10 s after the last state entry) the protocol performs exactly `N`
complete REST→CUE→FLICKER→REST cycles — the observed state trace is
`([CUE, FLICKER, REST])^N ++ [IDLE]` — and once in `IDLE` every further
`update`, at any time, changes nothing and emits nothing. -/
theorem offline_session_complete (stims : List Stimulus) (ht : Bool) (rng : ℕ → ℕ)
    (now : ℚ) (N : ℕ) (hne : stims ≠ []) :
    ∃ m1 : ExperimentManager,
      ({ ExperimentManager.init "offline" stims ht with total_offline_rounds := N }).start
          rng now = some (m1, []) ∧
      m1.offline_sequence.length = N ∧
      (∀ x ∈ m1.offline_sequence, x < stims.length) ∧
      traceBig m1 (3 * N + 1) =
        (List.replicate N [EMState.CUE, EMState.FLICKER, EMState.REST]).flatten
          ++ [EMState.IDLE] ∧
      (driveBig m1 (3 * N + 1)).state = .IDLE ∧
      (∀ t fc, (driveBig m1 (3 * N + 1)).update t fc = (driveBig m1 (3 * N + 1), [])) := by
  have hlen0 : ¬ stims.length = 0 := by
    simpa [List.length_eq_zero] using hne
  refine ⟨((mStart stims ht rng now N).enter_state .REST now 0).1,
    offline_start_eq stims ht rng now N hlen0, ?_, ?_, ?_⟩
  · show ((List.range N).map (fun i => rng i % stims.length)).length = N
    simp
  · intro x hx
    have hx' : x ∈ (List.range N).map (fun i => rng i % stims.length) := hx
    obtain ⟨i, _, rfl⟩ := List.mem_map.1 hx'
    exact Nat.mod_lt _ (Nat.pos_of_ne_zero hlen0)
  · have hready : OfflineReady ((mStart stims ht rng now N).enter_state .REST now 0).1 :=
      ⟨rfl, rfl, rfl, rfl⟩
    have hseq : ((mStart stims ht rng now N).enter_state .REST now 0).1.offline_sequence.length
        = ((mStart stims ht rng now N).enter_state .REST now 0).1.offline_round + N := by
      show ((List.range N).map (fun i => rng i % stims.length)).length = 0 + N
      simp
    have hrun := offline_run N ((mStart stims ht rng now N).enter_state .REST now 0).1
      hready rfl hseq
    exact ⟨hrun.1, hrun.2.1, fun t fc => update_idle_noop _ t fc hrun.2.2 hrun.2.1⟩

/-- Witness for C3: one stimulus, two trials, identity randomness oracle,
session started at time 0. -/
theorem offline_session_complete_witness :
    ∃ m1 : ExperimentManager,
      ({ ExperimentManager.init "offline" [sFlick] true with total_offline_rounds := 2 }).start
          (fun i => i) 0 = some (m1, []) ∧
      m1.offline_sequence.length = 2 ∧
      (∀ x ∈ m1.offline_sequence, x < [sFlick].length) ∧
      traceBig m1 (3 * 2 + 1) =
        (List.replicate 2 [EMState.CUE, EMState.FLICKER, EMState.REST]).flatten
          ++ [EMState.IDLE] ∧
      (driveBig m1 (3 * 2 + 1)).state = .IDLE ∧
      (∀ t fc, (driveBig m1 (3 * 2 + 1)).update t fc = (driveBig m1 (3 * 2 + 1), [])) :=
  offline_session_complete [sFlick] true (fun i => i) 0 2 (List.cons_ne_nil _ _)

/-- C8 counterexample: with an unknown mode (`"bogus"`), zero stimuli and a
non-positive flicker frequency, nothing fails at construction time and the
session is not aborted: the constructor returns a manager in `IDLE`,
`start()` succeeds (merely recording the start time), and `set_flicker`
accepts frequency `-1`. -/
theorem no_construction_validation_counterexample :
    (ExperimentManager.init "bogus" [] true).state = EMState.IDLE ∧
    (ExperimentManager.init "bogus" [] true).start (fun i => i) 0 =
      some (ExperimentManager.init "bogus" [] true, []) ∧
    (Stimulus.init.set_flicker (-1) 0 none 0 0).is_flickering = true := by
  exact ⟨rfl, rfl, rfl⟩

/-- C8 (amended). The constructor performs no validation at all: any mode
string, any stimulus list (including empty) and any flicker frequency
(via `set_flicker`) are accepted without error. An unrecognized mode leaves
the protocol inert — `start` only records the start time and `update` does
nothing — while zero stimuli in `offline` mode make `start()` itself fail
(the `IndexError` from `random.choice` on an empty list), i.e. the errors
the specification assigns to construction time actually surface, if at all,
at session start. -/
theorem construction_performs_no_validation (mode : String) (stims : List Stimulus)
    (ht : Bool) (freq phase : ℚ) (dur : Option ℚ) (cf : ℤ) (rng : ℕ → ℕ)
    (now t : ℚ) (fc : ℤ) :
    (ExperimentManager.init mode stims ht).state = .IDLE ∧
    (Stimulus.init.set_flicker freq phase dur cf now).is_flickering = true ∧
    (mode ≠ "offline" → mode ≠ "online_discrete" → mode ≠ "online_continuous" →
      (ExperimentManager.init mode stims ht).start rng now =
        some ({ ExperimentManager.init mode stims ht with state_start_time := now }, []) ∧
      (ExperimentManager.init mode stims ht).update t fc =
        (ExperimentManager.init mode stims ht, [])) ∧
    (stims = [] → (ExperimentManager.init "offline" stims ht).start rng now = none) := by
  refine ⟨rfl, rfl, fun h1 h2 h3 => ⟨?_, ?_⟩, fun h => ?_⟩
  · unfold ExperimentManager.start
    rw [if_neg (by simpa [ExperimentManager.init] using h1),
      if_neg (by simpa [ExperimentManager.init] using h2),
      if_neg (by simpa [ExperimentManager.init] using h3)]
  · unfold ExperimentManager.update
    rw [if_neg (by simpa [ExperimentManager.init] using h1),
      if_neg (by simpa [ExperimentManager.init] using h2),
      if_neg (by simpa [ExperimentManager.init] using h3)]
  · subst h
    rfl

/-- Witness for the amended C8 at mode `"bogus"` and at `offline` with zero
stimuli. -/
theorem construction_performs_no_validation_witness :
    (ExperimentManager.init "bogus" [] true).update 5 3 =
      (ExperimentManager.init "bogus" [] true, []) ∧
    (ExperimentManager.init "offline" [] true).start (fun i => i) 1 = none :=
  ⟨((construction_performs_no_validation "bogus" [] true (-1) 0 none 0 (fun i => i)
      5 5 3).2.2.1 (by decide) (by decide) (by decide)).2,
    (construction_performs_no_validation "offline" [] true (-1) 0 none 0 (fun i => i)
      1 1 3).2.2.2 rfl⟩
